import Mathlib

/-!
Shallow embedding of `sharelatex-git.py` (sharelatex-git-integration-unofficial).

The script is modelled at two levels:
* pure string-processing functions (`pyStrip`, `pyLines`, `commit_cmd`,
  `ensure_gitignore_content`, `extract_id_from_input`, ...) translated
  directly from the corresponding Python functions; and
* an effect-trace model of the orchestrated flow (`go`) in which each
  external interaction (subprocess, network, file system, operator prompt)
  is recorded as an `Effect` and the outcomes of the external world are
  supplied by an `Env` record.
-/

namespace SharelatexGit

/-! ## Python string primitives -/

/-- The whitespace set of Python's `str.strip()`. -/
def pySpace (c : Char) : Bool :=
  c = ' ' || c = '\t' || c = '\n' || c = '\r' || c = '\x0b' || c = '\x0c'

/-- Python `str.strip()` on a character list. -/
def pyStrip (l : List Char) : List Char :=
  ((l.dropWhile pySpace).reverse.dropWhile pySpace).reverse

/-- Python `str.strip()` on a `String`. -/
def pyStripS (s : String) : String :=
  String.mk (pyStrip s.toList)

/-- Python `str.lower()` (ASCII-relevant part), as a character list. -/
def pyLower (s : String) : List Char :=
  s.toList.map Char.toLower

/-- Python truthiness of an optional string: `None` and `''` are falsy. -/
def pyTruthy : Option String → Bool
  | none => false
  | some s => !s.isEmpty

/-- Helper for `pyLines`: Python `file.readlines()` line splitting
(each `'\n'` terminates a line; a trailing unterminated chunk is a line). -/
def pyLinesAux : List Char → List Char → List (List Char)
  | [], acc => if acc.isEmpty then [] else [acc.reverse]
  | c :: cs, acc => if c = '\n' then acc.reverse :: pyLinesAux cs [] else pyLinesAux cs (c :: acc)

/-- The list of lines of a file's raw content, as produced by Python
`readlines()` (line terminators subsequently removed by `strip()`). -/
def pyLines (l : List Char) : List (List Char) :=
  pyLinesAux l []

/-- Concatenation of entries, each followed by `'\n'`: the bytes written by
successive `f.write(s + '\n')` calls. -/
def joinLines : List (List Char) → List Char
  | [] => []
  | e :: es => e ++ '\n' :: joinLines es

/-! ## `get_timestamp` -/

/-- A broken-down local time, as consumed by `time.strftime`. -/
structure Tm where
  year : Nat
  month : Nat
  day : Nat
  hour : Nat
  minute : Nat
  second : Nat
deriving DecidableEq

/-- Zero-pad a number to width `w`, as `strftime` does for its fields. -/
def padNum (w : Nat) (n : Nat) : String :=
  let s := toString n
  String.mk (List.replicate (w - s.length) '0') ++ s

/-- `get_timestamp`: `time.strftime('%Y/%m/%d %H:%M:%S')` applied to the
current local time `t`. -/
def get_timestamp (t : Tm) : String :=
  padNum 4 t.year ++ "/" ++ padNum 2 t.month ++ "/" ++ padNum 2 t.day ++ " " ++
    padNum 2 t.hour ++ ":" ++ padNum 2 t.minute ++ ":" ++ padNum 2 t.second

/-! ## `commit_all_changes`: the commit command string -/

/-- The full `git commit` shell command built by `commit_all_changes`:
first the `-m"`-prefixed bracket part (with or without the project title,
per Python truthiness of `title`), then the optional free-text message and
the closing quote. -/
def commit_cmd (message : String) (title : Option String) (ts : String) : String :=
  let cmd :=
    if pyTruthy title then
      "git commit -m\"[sharelatex-git-integration " ++ title.getD "" ++ " " ++ ts ++ "]"
    else
      "git commit -m\"[sharelatex-git-integration " ++ ts ++ "]"
  if message.isEmpty then cmd ++ "\"" else cmd ++ " " ++ message ++ "\""

/-! ## `ensure_gitignore_is_fine`: file-content level -/

/-- The three entries `ensure_gitignore_is_fine` requires in `.gitignore`. -/
def requiredIgnores : List (List Char) :=
  ["sharelatex-git.py".toList, "sharelatex-git".toList, ".sharelatex-git".toList]

/-- The bytes appended to `.gitignore` by one run of
`ensure_gitignore_is_fine`, given the existing raw content (`none` models a
missing/unreadable file, whose `readlines` is treated as no lines). -/
def gitignoreAppend (old : Option (List Char)) : List Char :=
  let lines := (pyLines (old.getD [])).map pyStrip
  joinLines (requiredIgnores.filter (fun e => !decide (e ∈ lines)))

/-- The raw `.gitignore` content after one run of
`ensure_gitignore_is_fine` (the file is opened in append mode). -/
def ensure_gitignore_content (old : Option (List Char)) : List Char :=
  old.getD [] ++ gitignoreAppend old

/-! ## `extract_id_from_input` -/

/-- Python's substring test `pat in s` on character lists. -/
def pyContains (pat : List Char) : List Char → Bool
  | [] => pat.isEmpty
  | c :: cs => pat.isPrefixOf (c :: cs) || pyContains pat cs

/-- The URL test of `extract_id_from_input`:
`'http:' in i.lower() or 'https:' in i.lower()`. -/
def isUrlInput (i : String) : Bool :=
  pyContains "http:".toList (pyLower i) || pyContains "https:".toList (pyLower i)

/-- Characters allowed after the first letter of a URL scheme. -/
def isSchemeChar (c : Char) : Bool :=
  c.isAlphanum || c = '+' || c = '-' || c = '.'

/-- `urllib.parse.urlsplit`: strip a leading `scheme:` when the text before
the first `':'` is a well-formed scheme (a letter followed by scheme
characters); otherwise leave the input unchanged. -/
def splitAfterScheme (l : List Char) : List Char :=
  let pre := l.takeWhile (fun c => c ≠ ':')
  match pre with
  | [] => l
  | c :: cs =>
    if pre.length < l.length && c.isAlpha && cs.all isSchemeChar then
      l.drop (pre.length + 1)
    else l

/-- `urllib.parse.urlsplit`: after the scheme, `//netloc` (up to the next
`'/'`, `'?'` or `'#'`) is removed; the path starts at that delimiter. -/
def dropNetloc (l : List Char) : List Char :=
  match l with
  | '/' :: '/' :: rest => rest.dropWhile (fun c => c ≠ '/' && c ≠ '?' && c ≠ '#')
  | _ => l

/-- `urllib.parse.urlsplit(i).path`: the component after an optional scheme
and netloc, up to the query/fragment delimiters. -/
def urlsplitPath (s : String) : List Char :=
  (dropNetloc (splitAfterScheme s.toList)).takeWhile (fun c => c ≠ '?' && c ≠ '#')

/-- The literal part of the pattern `/project/([a-zA-Z0-9]*).*`. -/
def projectMarker : List Char := "/project/".toList

/-- `re.search` of `/project/([a-zA-Z0-9]*).*` on the path: at the first
occurrence of the literal `/project/`, the group captures the maximal run
of ASCII alphanumerics (possibly empty, the pattern being `*`); `none`
when the literal never occurs (then `.group(1)` raises and the caller's
`except` turns it into a fatal error). -/
def findProjectSeg : List Char → Option (List Char)
  | [] => none
  | c :: cs =>
    if projectMarker.isPrefixOf (c :: cs) then
      some (((c :: cs).drop projectMarker.length).takeWhile Char.isAlphanum)
    else findProjectSeg cs

/-- Outcome of `extract_id_from_input`: a returned identifier, a fatal
termination, or the warn-and-return-`None` path. -/
inductive ExtractResult
  | ok (id : String)
  | fatal (msg : String)
  | warned
deriving DecidableEq

/-- `re.match("[a-zA-Z0-9]*", i)` used as a boolean: a `*` pattern matches
the empty prefix at position 0, so a (truthy) match object is returned for
every input. -/
def matchAlnumStar (_ : String) : Bool := true

/-- `extract_id_from_input`. -/
def extract_id_from_input (i : String) : ExtractResult :=
  if isUrlInput i then
    match findProjectSeg (urlsplitPath i) with
    | some g => .ok (String.mk g)
    | none => .fatal ("Unrecognized id supplied (" ++ i ++ ") [http/https]")
  else
    if matchAlnumStar i then .ok i
    else .warned

/-! ## Effect-trace model of the orchestrated flow

External interactions are recorded as `Effect`s; the reactions of the
external world (subprocess exit statuses and outputs, network success,
file contents, operator input) are supplied by an `Env`. -/

/-- The shell commands the script runs through `run_cmd`. -/
inductive Cmd
  | gitInit
  | gitStatus
  | gitStatusScoped
  | gitRevParse
  | gitAddAll
  | gitAddPath (p : String)
  | gitCommit (message : String) (title : Option String) (ts : String)
  | gitPush
deriving DecidableEq

/-- The exact shell string of each command, as in the source. -/
def Cmd.render : Cmd → String
  | gitInit => "git init"
  | gitStatus => "git status"
  | gitStatusScoped => "git status ."
  | gitRevParse => "git rev-parse --show-toplevel"
  | gitAddAll => "git add -A ."
  | gitAddPath p => "git add -A " ++ p
  | gitCommit m t ts => commit_cmd m t ts
  | gitPush => "git push origin master"

/-- One observable external interaction of the script. -/
inductive Effect
  | log (msg : String)
  | warn (msg : String)
  | prompt
  | runCmd (c : Cmd)
  | download (url : String) (dest : String)
  | extractZip (f : String)
  | removeFile (f : String)
  | moveFile (src : String) (dst : String)
  | rmdir (d : String)
  | readFile (f : String)
  | appendFile (f : String) (data : List Char)
  | writeFile (f : String) (data : String)
  | httpGet (url : String)
  | httpPost (url : String)
deriving DecidableEq

/-- How a run can stop early: `Logger.fatal_error` (which calls `exit()`),
an uncaught Python exception, or the conflict prompt looping forever. -/
inductive GoErr
  | fatal (msg : String)
  | exn
  | hang
deriving DecidableEq

instance {ε α : Type} [DecidableEq ε] [DecidableEq α] : DecidableEq (Except ε α) := fun x y =>
  match x, y with
  | Except.ok a, Except.ok b =>
    if h : a = b then isTrue (by rw [h]) else isFalse (fun hh => h (by cases hh; rfl))
  | Except.ok _, Except.error _ => isFalse (fun hh => Except.noConfusion hh)
  | Except.error _, Except.ok _ => isFalse (fun hh => Except.noConfusion hh)
  | Except.error e, Except.error e' =>
    if h : e = e' then isTrue (by rw [h]) else isFalse (fun hh => h (by cases hh; rfl))

/-- A computation of the script: the effects it performed and its outcome. -/
def Res (α : Type) : Type := List Effect × Except GoErr α

/-- Sequencing of script computations: effects accumulate; a fatal
error/exception stops the run. -/
def Res.bind {α β : Type} (x : Res α) (f : α → Res β) : Res β :=
  match x with
  | (t, Except.ok a) => (t ++ (f a).1, (f a).2)
  | (t, Except.error e) => (t, Except.error e)

/-- The reactions of the external world for one run. -/
structure Env where
  /-- `read_saved_sharelatex_document()`: the stripped first line of
  `.sharelatex-git`, or `none` when the file is missing/unreadable. -/
  savedId : Option String
  /-- successive `input()` answers to the id-conflict prompt. -/
  promptAnswers : List String
  /-- output of `git status` (run with `allow_fail=True`). -/
  statusOut : String
  /-- `git init` exits 0. -/
  initOk : Bool
  /-- `git rev-parse --show-toplevel` exits 0. -/
  revParseOk : Bool
  /-- output of `git rev-parse --show-toplevel`. -/
  gitRoot : String
  /-- raw `.gitignore` content; `none` when missing/unreadable. -/
  gitignoreContent : Option (List Char)
  /-- opening `.gitignore` for append succeeds. -/
  gitignoreWritable : Bool
  /-- `urllib.request.urlretrieve` of the zip succeeds. -/
  downloadOk : Bool
  /-- the downloaded file is a valid zip (`extractall` raises no `BadZipFile`). -/
  zipOk : Bool
  /-- the `LaTeX` folder exists (`os.listdir('LaTeX')` raises otherwise). -/
  laTeXFolderExists : Bool
  /-- `os.listdir('LaTeX')`. -/
  laTeXListing : List String
  /-- best-effort project title (`none` on any network/parse failure). -/
  titleResult : Option String
  /-- `git status .` exits 0. -/
  statusScopedOk : Bool
  /-- output of `git status .`. -/
  statusScopedOut : String
  /-- `git add -A .` exits 0. -/
  addOk : Bool
  /-- `git add -A <gitignore>` exits 0. -/
  addIgnoreOk : Bool
  /-- the `git commit` command exits 0. -/
  commitOk : Bool
  /-- local time at which the commit command is built. -/
  now : Tm
  /-- `git push origin master` exits 0. -/
  pushOk : Bool
  /-- the experimental sharelatex upload raises no exception. -/
  sharelatexOk : Bool
  /-- writing `.sharelatex-git` succeeds. -/
  writeSavedOk : Bool

/-- The source's command runner with `allow_fail=False`: non-zero exit status is fatal. -/
def runShell (c : Cmd) (ok : Bool) (out : String) : Res String :=
  if ok then ([Effect.runCmd c], Except.ok out)
  else ([Effect.runCmd c], Except.error (GoErr.fatal ("Error executing \"" ++ c.render ++ "\"")))

/-- `read_saved_sharelatex_document`. -/
def read_saved_sharelatex_document (env : Env) : Res (Option String) :=
  ([Effect.readFile ".sharelatex-git"], Except.ok env.savedId)

/-- The prompt text shown on conflicting identifiers. -/
def conflictLog (saved new : String) : Effect :=
  Effect.log ("Conflicting ids. Given " ++ saved ++ ", but previous records show " ++
    new ++ ". Which to use?")

/-- The interactive conflict loop of `determine_id`: consume prompt answers
until one strips to `''` (defaulted to `'2'`), `'1'` or `'2'`; `none` when
the supply of answers runs out (the Python loop would continue forever). -/
def resolveConflictLoop (saved new : String) : List String → List Effect × Option String
  | [] => ([], none)
  | ans :: rest =>
    if pyStripS ans = "" || pyStripS ans = "2" then
      ([conflictLog saved new, Effect.prompt], some new)
    else if pyStripS ans = "1" then
      ([conflictLog saved new, Effect.prompt], some saved)
    else
      ([conflictLog saved new, Effect.prompt] ++ (resolveConflictLoop saved new rest).1,
       (resolveConflictLoop saved new rest).2)

/-- `determine_id`. -/
def determine_id (uid : Option String) (env : Env) : Res String :=
  Res.bind (read_saved_sharelatex_document env) fun saved =>
    if pyTruthy uid && pyTruthy saved then
      if uid.getD "" ≠ saved.getD "" then
        match resolveConflictLoop (saved.getD "") (uid.getD "") env.promptAnswers with
        | (t, some chosen) => (t, Except.ok chosen)
        | (t, none) => (t, Except.error GoErr.hang)
      else ([], Except.ok (uid.getD ""))
    else if !pyTruthy saved && !pyTruthy uid then
      ([], Except.error (GoErr.fatal "No id supplied! See (-h) for usage."))
    else if pyTruthy saved then
      ([], Except.ok (saved.getD ""))
    else
      ([], Except.ok (uid.getD ""))

/-- `is_git_repository` (the status query runs with `allow_fail=True`). -/
def is_git_repository (env : Env) : Res Bool :=
  ([Effect.runCmd Cmd.gitStatus],
   Except.ok (!pyContains "not a git repository".toList (pyLower env.statusOut)))

/-- `ensure_git_repository_started`. -/
def ensure_git_repository_started (env : Env) : Res Unit :=
  Res.bind (is_git_repository env) fun isRepo =>
    if isRepo then ([], Except.ok ())
    else
      Res.bind ([Effect.log "Initializing empty git repository..."], Except.ok ()) fun _ =>
      Res.bind (runShell Cmd.gitInit env.initOk "") fun _ =>
      ([], Except.ok ())

/-- `get_base_git_root`. -/
def get_base_git_root (env : Env) : Res String :=
  Res.bind (runShell Cmd.gitRevParse env.revParseOk env.gitRoot) fun out =>
    ([], Except.ok (pyStripS out))

/-- `get_git_ignore` (`os.path.join(git_base, '.gitignore')`). -/
def get_git_ignore (env : Env) : Res String :=
  Res.bind (get_base_git_root env) fun root =>
    ([], Except.ok (root ++ "/.gitignore"))

/-- `ensure_gitignore_is_fine`: read the existing lines, then append each
required entry not already present; failure to write is a warning. -/
def ensure_gitignore_is_fine (env : Env) : Res Unit :=
  Res.bind (get_git_ignore env) fun gi =>
    if env.gitignoreWritable then
      ([Effect.readFile gi, Effect.appendFile gi (gitignoreAppend env.gitignoreContent)],
       Except.ok ())
    else
      ([Effect.readFile gi, Effect.warn ("Can't edit .gitignore file [" ++ gi ++ "].")],
       Except.ok ())

/-- `fetch_updates`. -/
def fetch_updates (id : String) (skip_LaTeX_folder : Bool) (env : Env) : Res (Option String) :=
  let file_name := "sharelatex.zip"
  let final_url := "https://www.sharelatex.com/project/" ++ id ++ "/download/zip"
  if !env.downloadOk then
    ([Effect.log ("Downloading files from " ++ final_url ++ "..."),
      Effect.download final_url file_name],
     Except.error (GoErr.fatal "Could not retrieve files. Perhaps a temporary network failure? Invalid id?"))
  else if !env.zipOk then
    ([Effect.log ("Downloading files from " ++ final_url ++ "..."),
      Effect.download final_url file_name,
      Effect.log "Decompressing files...",
      Effect.extractZip file_name,
      Effect.removeFile file_name],
     Except.error (GoErr.fatal "Downloaded file is not a zip file. Have you made sure that your project is public?"))
  else
    let t0 : List Effect :=
      [Effect.log ("Downloading files from " ++ final_url ++ "..."),
       Effect.download final_url file_name,
       Effect.log "Decompressing files...",
       Effect.extractZip file_name,
       Effect.removeFile file_name]
    if skip_LaTeX_folder then
      if env.laTeXFolderExists then
        (t0 ++ [Effect.log "Moving files out of LaTeX folder..."] ++
           env.laTeXListing.map (fun f => Effect.moveFile ("LaTeX/" ++ f) ".") ++
           [Effect.rmdir "LaTeX",
            Effect.httpGet ("https://www.sharelatex.com/project/" ++ id)],
         Except.ok env.titleResult)
      else
        (t0 ++ [Effect.log "Moving files out of LaTeX folder..."], Except.error GoErr.exn)
    else
      (t0 ++ [Effect.httpGet ("https://www.sharelatex.com/project/" ++ id)],
       Except.ok env.titleResult)

/-- The clean-state phrase checked by `files_changed`. -/
def cleanPhrase : String := "nothing to commit, working directory clean"

/-- `files_changed`. -/
def files_changed (env : Env) : Res Bool :=
  Res.bind (runShell Cmd.gitStatusScoped env.statusScopedOk env.statusScopedOut) fun out =>
    ([], Except.ok (!pyContains cleanPhrase.toList (pyLower out)))

/-- `commit_all_changes`. -/
def commit_all_changes (message : String) (title : Option String) (env : Env) : Res Unit :=
  Res.bind (runShell Cmd.gitAddAll env.addOk "") fun _ =>
  Res.bind (get_git_ignore env) fun gi =>
  Res.bind (runShell (Cmd.gitAddPath gi) env.addIgnoreOk "") fun _ =>
  Res.bind (runShell (Cmd.gitCommit message title (get_timestamp env.now)) env.commitOk "") fun _ =>
  ([], Except.ok ())

/-- `git_push`. -/
def git_push (env : Env) : Res Unit :=
  Res.bind
    ([Effect.warn "Pushing is an experimental feature. If you experience lockdowns, hit CTRL+C."],
     Except.ok ()) fun _ =>
  Res.bind (runShell Cmd.gitPush env.pushOk "") fun _ =>
  ([], Except.ok ())

/-- `sharelatex_push` (experimental upload; any exception is uncaught). -/
def sharelatex_push (env : Env) : Res Unit :=
  ([Effect.warn "Pushing to sharelatex is an experimental feature. Use at your own risk.",
    Effect.prompt, Effect.prompt,
    Effect.httpGet "https://www.sharelatex.com/login",
    Effect.httpPost "https://www.sharelatex.com/login",
    Effect.httpGet "https://www.sharelatex.com/project",
    Effect.httpPost "https://www.sharelatex.com/project/new/upload"],
   if env.sharelatexOk then Except.ok () else Except.error GoErr.exn)

/-- `write_saved_sharelatex_document`: the write is attempted; failure is a
non-fatal warning. -/
def write_saved_sharelatex_document (id : String) (env : Env) : Res Unit :=
  if env.writeSavedOk then
    ([Effect.writeFile ".sharelatex-git" (id ++ "\n")], Except.ok ())
  else
    ([Effect.writeFile ".sharelatex-git" (id ++ "\n"),
      Effect.warn "Problem creating .sharelatex-git file"], Except.ok ())

/-- The log line announcing a commit in `go`. -/
def commitLog (message : String) : Effect :=
  if message.isEmpty then Effect.log "Comitting changes. No message."
  else Effect.log ("Comitting changes. Message: " ++ message ++ ".")

/-- `go`: the whole orchestrated run. Note the fetch step is invoked with
`skip_LaTeX_folder = false`, as in the source (`fetch_updates(id, False)`). -/
def go (uid : Option String) (message : String)
    (push sharelatexPushFlag dont_commit : Bool) (env : Env) : Res Unit :=
  Res.bind (determine_id uid env) fun id =>
  Res.bind (ensure_git_repository_started env) fun _ =>
  Res.bind (ensure_gitignore_is_fine env) fun _ =>
  Res.bind (fetch_updates id false env) fun project_title =>
  Res.bind
    (if dont_commit then ([], Except.ok ()) else
      Res.bind (files_changed env) fun changed =>
        if changed then
          Res.bind ([commitLog message], Except.ok ()) fun _ =>
          Res.bind (commit_all_changes message project_title env) fun _ =>
          (if push then git_push env else ([], Except.ok ()))
        else ([Effect.log "No changes to commit."], Except.ok ())) fun _ =>
  Res.bind (if sharelatexPushFlag then sharelatex_push env else ([], Except.ok ())) fun _ =>
  Res.bind (write_saved_sharelatex_document id env) fun _ =>
  ([Effect.log "All done!"], Except.ok ())

/-! ## Effect classifiers used by the claims -/

/-- Is this effect the removal of a directory? -/
def isRmdirEffect : Effect → Bool
  | Effect.rmdir _ => true
  | _ => false

/-- Is this effect a file move? -/
def isMoveEffect : Effect → Bool
  | Effect.moveFile _ _ => true
  | _ => false

/-- Is this effect a `git add` staging command? -/
def isStagingEffect : Effect → Bool
  | Effect.runCmd Cmd.gitAddAll => true
  | Effect.runCmd (Cmd.gitAddPath _) => true
  | _ => false

/-- Is this effect a `git commit` command? -/
def isCommitEffect : Effect → Bool
  | Effect.runCmd (Cmd.gitCommit _ _ _) => true
  | _ => false

/-- Is this effect the scoped change-detection query `git status .`? -/
def isScopedStatusEffect : Effect → Bool
  | Effect.runCmd Cmd.gitStatusScoped => true
  | _ => false

/-- Is this effect a file write (the Sync State File update)? -/
def isStateWriteEffect : Effect → Bool
  | Effect.writeFile _ _ => true
  | _ => false

/-! ## Concrete environments for witnesses and counterexamples -/

/-- An environment in which every external interaction succeeds, there are
local changes, and no identifier was persisted. -/
def envBase : Env where
  savedId := none
  promptAnswers := []
  statusOut := "On branch master"
  initOk := true
  revParseOk := true
  gitRoot := "/repo\n"
  gitignoreContent := none
  gitignoreWritable := true
  downloadOk := true
  zipOk := true
  laTeXFolderExists := true
  laTeXListing := []
  titleResult := some "Thesis"
  statusScopedOk := true
  statusScopedOut := "Changes not staged for commit"
  addOk := true
  addIgnoreOk := true
  commitOk := true
  now := ⟨2024, 1, 2, 3, 4, 5⟩
  pushOk := true
  sharelatexOk := true
  writeSavedOk := true

/-- Like `envBase` but the `git push` command exits non-zero. -/
def envPushFail : Env := { envBase with pushOk := false }

/-- Like `envBase` but the scoped status says the directory is clean. -/
def envClean : Env :=
  { envBase with statusScopedOut := "Nothing to commit, Working Directory Clean" }

/-! ## Basic lemmas about the effect model -/

theorem Res.bind_ok {α β : Type} {x : Res α} {f : α → Res β} {b : β}
    (h : (Res.bind x f).2 = Except.ok b) :
    ∃ a, x.2 = Except.ok a ∧ (f a).2 = Except.ok b ∧ (Res.bind x f).1 = x.1 ++ (f a).1 := by
  rcases x with ⟨t, r⟩
  cases r with
  | ok a => exact ⟨a, rfl, h, rfl⟩
  | error e => exact Except.noConfusion h

theorem Res.bind_all {p : Effect → Bool} {α β : Type} {x : Res α} {f : α → Res β}
    (hx : x.1.all p = true) (hf : ∀ a, x.2 = Except.ok a → ((f a).1.all p) = true) :
    (Res.bind x f).1.all p = true := by
  rcases x with ⟨t, r⟩
  cases r with
  | ok a =>
    have := hf a rfl
    simp only [Res.bind, List.all_append, Bool.and_eq_true]
    exact ⟨hx, this⟩
  | error e => exact hx

theorem runShell_trace (c : Cmd) (ok : Bool) (out : String) :
    (runShell c ok out).1 = [Effect.runCmd c] := by
  cases ok <;> rfl

/-! ## Per-component trace lemmas -/

theorem all_resolveConflictLoop (p : Effect → Bool)
    (hlog : ∀ m, p (Effect.log m) = true) (hpr : p Effect.prompt = true) :
    ∀ (s n : String) (l : List String), ((resolveConflictLoop s n l).1.all p) = true := by
  intro s n l
  induction l with
  | nil => simp [resolveConflictLoop]
  | cons a rest ih =>
    simp only [resolveConflictLoop]
    split
    · simp [conflictLog, hlog, hpr]
    · split
      · simp [conflictLog, hlog, hpr]
      · simp [conflictLog, List.all_append, hlog, hpr, ih]

theorem all_determine_id (p : Effect → Bool)
    (hread : ∀ f, p (Effect.readFile f) = true)
    (hlog : ∀ m, p (Effect.log m) = true)
    (hpr : p Effect.prompt = true) :
    ∀ (uid : Option String) (env : Env), (determine_id uid env).1.all p = true := by
  intro uid env
  have hc := all_resolveConflictLoop p hlog hpr (env.savedId.getD "") (uid.getD "")
    env.promptAnswers
  simp only [determine_id, read_saved_sharelatex_document, Res.bind]
  split
  · split
    · rcases hm : resolveConflictLoop (env.savedId.getD "") (uid.getD "") env.promptAnswers
        with ⟨t, r⟩
      rw [hm] at hc
      cases r <;> simp_all [hread]
    · simp [hread]
  · split
    · simp [hread]
    · split <;> simp [hread]

theorem all_ensure_git (p : Effect → Bool)
    (hst : p (Effect.runCmd Cmd.gitStatus) = true)
    (hlog : ∀ m, p (Effect.log m) = true)
    (hinit : p (Effect.runCmd Cmd.gitInit) = true) :
    ∀ env : Env, (ensure_git_repository_started env).1.all p = true := by
  intro env
  cases hin : env.initOk <;>
    simp [ensure_git_repository_started, is_git_repository, Res.bind, runShell, hin, hst,
      hlog, hinit] <;> split <;> simp [hst, hlog, hinit]

theorem all_ensure_gitignore (p : Effect → Bool)
    (hrev : p (Effect.runCmd Cmd.gitRevParse) = true)
    (hread : ∀ f, p (Effect.readFile f) = true)
    (happ : ∀ f d, p (Effect.appendFile f d) = true)
    (hwarn : ∀ m, p (Effect.warn m) = true) :
    ∀ env : Env, (ensure_gitignore_is_fine env).1.all p = true := by
  intro env
  cases hrv : env.revParseOk <;> cases hw : env.gitignoreWritable <;>
    simp [ensure_gitignore_is_fine, get_git_ignore, get_base_git_root, Res.bind, runShell,
      hrv, hw, hrev, hread, happ, hwarn]

theorem all_fetch_noskip (p : Effect → Bool)
    (hlog : ∀ m, p (Effect.log m) = true)
    (hdl : ∀ u d, p (Effect.download u d) = true)
    (hex : ∀ f, p (Effect.extractZip f) = true)
    (hrm : ∀ f, p (Effect.removeFile f) = true)
    (hget : ∀ u, p (Effect.httpGet u) = true) :
    ∀ (id : String) (env : Env), (fetch_updates id false env).1.all p = true := by
  intro id env
  cases hd : env.downloadOk <;> cases hz : env.zipOk <;>
    simp [fetch_updates, hd, hz, List.all_append, hlog, hdl, hex, hrm, hget]

theorem all_files_changed (p : Effect → Bool)
    (hst : p (Effect.runCmd Cmd.gitStatusScoped) = true) :
    ∀ env : Env, (files_changed env).1.all p = true := by
  intro env
  cases hs : env.statusScopedOk <;>
    simp [files_changed, Res.bind, runShell, hs, hst]

theorem all_commit_all_changes (p : Effect → Bool)
    (haddA : p (Effect.runCmd Cmd.gitAddAll) = true)
    (hrev : p (Effect.runCmd Cmd.gitRevParse) = true)
    (haddP : ∀ q, p (Effect.runCmd (Cmd.gitAddPath q)) = true)
    (hcmt : ∀ m t ts, p (Effect.runCmd (Cmd.gitCommit m t ts)) = true) :
    ∀ (m : String) (t : Option String) (env : Env),
      (commit_all_changes m t env).1.all p = true := by
  intro m t env
  cases h1 : env.addOk <;> cases h2 : env.revParseOk <;> cases h3 : env.addIgnoreOk <;>
    cases h4 : env.commitOk <;>
    simp [commit_all_changes, get_git_ignore, get_base_git_root, Res.bind, runShell,
      h1, h2, h3, h4, haddA, hrev, haddP, hcmt]

theorem all_git_push (p : Effect → Bool)
    (hwarn : ∀ m, p (Effect.warn m) = true)
    (hpush : p (Effect.runCmd Cmd.gitPush) = true) :
    ∀ env : Env, (git_push env).1.all p = true := by
  intro env
  cases hp : env.pushOk <;> simp [git_push, Res.bind, runShell, hp, hwarn, hpush]

theorem all_sharelatex_push (p : Effect → Bool)
    (hwarn : ∀ m, p (Effect.warn m) = true)
    (hpr : p Effect.prompt = true)
    (hget : ∀ u, p (Effect.httpGet u) = true)
    (hpost : ∀ u, p (Effect.httpPost u) = true) :
    ∀ env : Env, (sharelatex_push env).1.all p = true := by
  intro env
  simp [sharelatex_push, hwarn, hpr, hget, hpost]

theorem all_write_saved (p : Effect → Bool)
    (hwr : ∀ f d, p (Effect.writeFile f d) = true)
    (hwarn : ∀ m, p (Effect.warn m) = true) :
    ∀ (id : String) (env : Env), (write_saved_sharelatex_document id env).1.all p = true := by
  intro id env
  cases hw : env.writeSavedOk <;> simp [write_saved_sharelatex_document, hw, hwr, hwarn]

theorem mem_write_saved (id : String) (env : Env) :
    Effect.writeFile ".sharelatex-git" (id ++ "\n") ∈
      (write_saved_sharelatex_document id env).1 := by
  cases hw : env.writeSavedOk <;> simp [write_saved_sharelatex_document, hw]

theorem all_commitLog (p : Effect → Bool) (hlog : ∀ m, p (Effect.log m) = true)
    (m : String) : p (commitLog m) = true := by
  unfold commitLog; split <;> exact hlog _

theorem files_changed_ok {env : Env} {b : Bool} (h : (files_changed env).2 = Except.ok b) :
    b = !pyContains cleanPhrase.toList (pyLower env.statusScopedOut) := by
  cases hs : env.statusScopedOk
  · exact absurd h (by simp [files_changed, Res.bind, runShell, hs])
  · have heq : (files_changed env).2 =
        Except.ok (!pyContains cleanPhrase.toList (pyLower env.statusScopedOut)) := by
      simp [files_changed, Res.bind, runShell, hs]
    rw [heq] at h
    exact (Except.ok.inj h).symm

/-- Every effect of a full `go` run satisfies `p`, provided `p` holds on
every effect constructor that `go` can emit (note: `moveFile`/`rmdir` are
not required, since the orchestrated flow never normalizes). -/
theorem all_go (p : Effect → Bool)
    (hlog : ∀ m, p (Effect.log m) = true)
    (hwarn : ∀ m, p (Effect.warn m) = true)
    (hpr : p Effect.prompt = true)
    (hread : ∀ f, p (Effect.readFile f) = true)
    (happ : ∀ f d, p (Effect.appendFile f d) = true)
    (hwr : ∀ f d, p (Effect.writeFile f d) = true)
    (hdl : ∀ u d, p (Effect.download u d) = true)
    (hex : ∀ f, p (Effect.extractZip f) = true)
    (hrm : ∀ f, p (Effect.removeFile f) = true)
    (hget : ∀ u, p (Effect.httpGet u) = true)
    (hpost : ∀ u, p (Effect.httpPost u) = true)
    (hcmd : ∀ c, p (Effect.runCmd c) = true) :
    ∀ (uid : Option String) (m : String) (push sp dc : Bool) (env : Env),
      (go uid m push sp dc env).1.all p = true := by
  intro uid m push sp dc env
  unfold go
  refine Res.bind_all (all_determine_id p hread hlog hpr uid env) fun id _ => ?_
  refine Res.bind_all (all_ensure_git p (hcmd _) hlog (hcmd _) env) fun _ _ => ?_
  refine Res.bind_all (all_ensure_gitignore p (hcmd _) hread happ hwarn env) fun _ _ => ?_
  refine Res.bind_all (all_fetch_noskip p hlog hdl hex hrm hget id env) fun pt _ => ?_
  refine Res.bind_all ?_ fun _ _ => ?_
  · cases dc
    · simp only [Bool.false_eq_true, if_false]
      refine Res.bind_all (all_files_changed p (hcmd _) env) fun changed _ => ?_
      cases changed
      · simp [hlog]
      · simp only [if_true]
        refine Res.bind_all (by simp [all_commitLog p hlog m]) fun _ _ => ?_
        refine Res.bind_all
          (all_commit_all_changes p (hcmd _) (hcmd _) (fun q => hcmd _)
            (fun a b c => hcmd _) m pt env) fun _ _ => ?_
        cases push
        · simp
        · exact all_git_push p hwarn (hcmd _) env
    · simp
  · refine Res.bind_all ?_ fun _ _ => ?_
    · cases sp
      · simp
      · exact all_sharelatex_push p hwarn hpr hget hpost env
    · refine Res.bind_all (all_write_saved p hwr hwarn id env) fun _ _ => ?_
      simp [hlog]

/-- Every effect of a `go` run in no-commit mode satisfies `p`, provided
`p` holds on all constructors the no-commit run can emit — staging,
commit and the scoped status query are *not* among them. -/
theorem all_go_dont (p : Effect → Bool)
    (hlog : ∀ m, p (Effect.log m) = true)
    (hwarn : ∀ m, p (Effect.warn m) = true)
    (hpr : p Effect.prompt = true)
    (hread : ∀ f, p (Effect.readFile f) = true)
    (happ : ∀ f d, p (Effect.appendFile f d) = true)
    (hwr : ∀ f d, p (Effect.writeFile f d) = true)
    (hdl : ∀ u d, p (Effect.download u d) = true)
    (hex : ∀ f, p (Effect.extractZip f) = true)
    (hrm : ∀ f, p (Effect.removeFile f) = true)
    (hget : ∀ u, p (Effect.httpGet u) = true)
    (hpost : ∀ u, p (Effect.httpPost u) = true)
    (hst : p (Effect.runCmd Cmd.gitStatus) = true)
    (hinit : p (Effect.runCmd Cmd.gitInit) = true)
    (hrev : p (Effect.runCmd Cmd.gitRevParse) = true) :
    ∀ (uid : Option String) (m : String) (push sp : Bool) (env : Env),
      (go uid m push sp true env).1.all p = true := by
  intro uid m push sp env
  unfold go
  refine Res.bind_all (all_determine_id p hread hlog hpr uid env) fun id _ => ?_
  refine Res.bind_all (all_ensure_git p hst hlog hinit env) fun _ _ => ?_
  refine Res.bind_all (all_ensure_gitignore p hrev hread happ hwarn env) fun _ _ => ?_
  refine Res.bind_all (all_fetch_noskip p hlog hdl hex hrm hget id env) fun pt _ => ?_
  refine Res.bind_all (by simp) fun _ _ => ?_
  refine Res.bind_all ?_ fun _ _ => ?_
  · cases sp
    · simp
    · exact all_sharelatex_push p hwarn hpr hget hpost env
  · refine Res.bind_all (all_write_saved p hwr hwarn id env) fun _ _ => ?_
    simp [hlog]

/-- Every effect of a `go` run whose scoped status output contains the
clean-state phrase satisfies `p`; `p` need not hold on commit commands,
because the commit step is unreachable. -/
theorem all_go_phrase (p : Effect → Bool) (env : Env)
    (hphrase : pyContains cleanPhrase.toList (pyLower env.statusScopedOut) = true)
    (hlog : ∀ m, p (Effect.log m) = true)
    (hwarn : ∀ m, p (Effect.warn m) = true)
    (hpr : p Effect.prompt = true)
    (hread : ∀ f, p (Effect.readFile f) = true)
    (happ : ∀ f d, p (Effect.appendFile f d) = true)
    (hwr : ∀ f d, p (Effect.writeFile f d) = true)
    (hdl : ∀ u d, p (Effect.download u d) = true)
    (hex : ∀ f, p (Effect.extractZip f) = true)
    (hrm : ∀ f, p (Effect.removeFile f) = true)
    (hget : ∀ u, p (Effect.httpGet u) = true)
    (hpost : ∀ u, p (Effect.httpPost u) = true)
    (hst : p (Effect.runCmd Cmd.gitStatus) = true)
    (hinit : p (Effect.runCmd Cmd.gitInit) = true)
    (hrev : p (Effect.runCmd Cmd.gitRevParse) = true)
    (hscoped : p (Effect.runCmd Cmd.gitStatusScoped) = true) :
    ∀ (uid : Option String) (m : String) (push sp dc : Bool),
      (go uid m push sp dc env).1.all p = true := by
  intro uid m push sp dc
  unfold go
  refine Res.bind_all (all_determine_id p hread hlog hpr uid env) fun id _ => ?_
  refine Res.bind_all (all_ensure_git p hst hlog hinit env) fun _ _ => ?_
  refine Res.bind_all (all_ensure_gitignore p hrev hread happ hwarn env) fun _ _ => ?_
  refine Res.bind_all (all_fetch_noskip p hlog hdl hex hrm hget id env) fun pt _ => ?_
  refine Res.bind_all ?_ fun _ _ => ?_
  · cases dc
    · simp only [Bool.false_eq_true, if_false]
      refine Res.bind_all (all_files_changed p hscoped env) fun changed hch => ?_
      have hc := files_changed_ok hch
      rw [hphrase] at hc
      subst hc
      simp [hlog]
    · simp
  · refine Res.bind_all ?_ fun _ _ => ?_
    · cases sp
      · simp
      · exact all_sharelatex_push p hwarn hpr hget hpost env
    · refine Res.bind_all (all_write_saved p hwr hwarn id env) fun _ _ => ?_
      simp [hlog]

/-! ## Claim C2 (amended) -/

/-- C2 (amended): on every `go` run that terminates normally — including
no-commit runs and runs whose push was a no-op — the Sync State File write
with the identifier resolved for that run (newline-terminated) appears in
the trace. (A failing requested push terminates the process fatally before
the write; see the counterexample.) -/
theorem go_ok_writes_state (uid : Option String) (m : String) (push sp dc : Bool) (env : Env)
    (h : (go uid m push sp dc env).2 = Except.ok ()) :
    ∃ id, (determine_id uid env).2 = Except.ok id ∧
      Effect.writeFile ".sharelatex-git" (id ++ "\n") ∈ (go uid m push sp dc env).1 := by
  unfold go at h ⊢
  obtain ⟨id, h1, h2, ht1⟩ := Res.bind_ok h
  obtain ⟨u2, g2, h3, ht2⟩ := Res.bind_ok h2
  obtain ⟨u3, g3, h4, ht3⟩ := Res.bind_ok h3
  obtain ⟨pt, g4, h5, ht4⟩ := Res.bind_ok h4
  obtain ⟨u5, g5, h6, ht5⟩ := Res.bind_ok h5
  obtain ⟨u6, g6, h7, ht6⟩ := Res.bind_ok h6
  obtain ⟨u7, g7, h8, ht7⟩ := Res.bind_ok h7
  refine ⟨id, h1, ?_⟩
  rw [ht1, ht2, ht3, ht4, ht5, ht6, ht7]
  have hw := mem_write_saved id env
  simp only [List.mem_append]
  tauto

/-- C2 witness: a fully successful run resolves the supplied identifier and
writes it to the Sync State File. -/
theorem go_ok_writes_state_witness :
    ∃ id, (determine_id (some "abc123") envBase).2 = Except.ok id ∧
      Effect.writeFile ".sharelatex-git" (id ++ "\n") ∈
        (go (some "abc123") "" false false false envBase).1 :=
  go_ok_writes_state (some "abc123") "" false false false envBase (by decide)

/-- C2 counterexample: with a requested push that fails, the run terminates
fatally and the Sync State File is never written — the claim's "even when a
requested push fails" does not hold. -/
theorem go_push_fail_no_state_write :
    ((go (some "abc123") "" true false false envPushFail).1.all
        fun e => !isStateWriteEffect e) = true
    ∧ (go (some "abc123") "" true false false envPushFail).2 =
        Except.error (GoErr.fatal "Error executing \"git push origin master\"") := by
  constructor
  · decide
  · decide

/-! ## Claim C1 -/

/-- C1 counterexample: a successful orchestrated run — the remote archive
fetched and extracted — whose trace never removes the nested `LaTeX`
folder (nor moves anything out of it): normalization did not happen. -/
theorem go_run_without_normalization :
    (go (some "abc123") "" false false false envBase).2 = Except.ok ()
    ∧ ((go (some "abc123") "" false false false envBase).1.all
        fun e => !(isRmdirEffect e || isMoveEffect e)) = true := by
  constructor
  · decide
  · decide

/-- C1 (amended): the orchestrated flow always invokes the archive-fetch
step with normalization *disabled* (`fetch_updates(id, False)`), so no run
of `go` ever moves entries out of the nested folder or removes it; the
normalization code exists behind the boolean (whose default is `True`) and
does remove the folder when the flag is passed as `true`. -/
theorem go_never_normalizes (uid : Option String) (m : String) (push sp dc : Bool)
    (env : Env) (id : String) :
    ((go uid m push sp dc env).1.all fun e => !(isRmdirEffect e || isMoveEffect e)) = true
    ∧ Effect.rmdir "LaTeX" ∈
        (fetch_updates id true
          { env with downloadOk := true, zipOk := true, laTeXFolderExists := true }).1 := by
  constructor
  · exact all_go (fun e => !(isRmdirEffect e || isMoveEffect e))
      (fun _ => rfl) (fun _ => rfl) rfl (fun _ => rfl) (fun _ _ => rfl) (fun _ _ => rfl)
      (fun _ _ => rfl) (fun _ => rfl) (fun _ => rfl) (fun _ => rfl) (fun _ => rfl)
      (fun _ => rfl) uid m push sp dc env
  · simp [fetch_updates]

/-! ## Claim C9 -/

/-- C9: in no-commit mode, no staging command, no commit command and no
scoped change-detection status query ever appears in the run's trace,
whatever the environment (in particular, whatever the working tree state). -/
theorem go_no_commit_mode (uid : Option String) (m : String) (push sp : Bool) (env : Env) :
    ((go uid m push sp true env).1.all
      fun e => !(isStagingEffect e || isCommitEffect e || isScopedStatusEffect e)) = true :=
  all_go_dont (fun e => !(isStagingEffect e || isCommitEffect e || isScopedStatusEffect e))
    (fun _ => rfl) (fun _ => rfl) rfl (fun _ => rfl) (fun _ _ => rfl) (fun _ _ => rfl)
    (fun _ _ => rfl) (fun _ => rfl) (fun _ => rfl) (fun _ => rfl) (fun _ => rfl)
    rfl rfl rfl uid m push sp env

/-! ## Claim C7 -/

/-- C7: if the scoped status output contains the clean-state phrase
(case-insensitively), change detection reports "no changes" and no commit
command appears anywhere in that run's trace; any other output is reported
as "changes present". -/
theorem change_detection_consistent (env : Env) (uid : Option String) (m : String)
    (push sp dc : Bool) :
    (pyContains cleanPhrase.toList (pyLower env.statusScopedOut) = true →
      (env.statusScopedOk = true → (files_changed env).2 = Except.ok false)
      ∧ ((go uid m push sp dc env).1.all fun e => !isCommitEffect e) = true)
    ∧ (pyContains cleanPhrase.toList (pyLower env.statusScopedOut) = false →
        env.statusScopedOk = true → (files_changed env).2 = Except.ok true) := by
  constructor
  · intro hp
    constructor
    · intro hs
      simp [files_changed, Res.bind, runShell, hs]
      exact hp
    · exact all_go_phrase (fun e => !isCommitEffect e) env hp
        (fun _ => rfl) (fun _ => rfl) rfl (fun _ => rfl) (fun _ _ => rfl) (fun _ _ => rfl)
        (fun _ _ => rfl) (fun _ => rfl) (fun _ => rfl) (fun _ => rfl) (fun _ => rfl)
        rfl rfl rfl rfl uid m push sp dc
  · intro hp hs
    simp [files_changed, Res.bind, runShell, hs]
    exact hp

/-- C7 witness: a concrete clean status output yields "no changes" and a
commit-free trace; a concrete dirty output yields "changes present". -/
theorem change_detection_consistent_witness :
    ((files_changed envClean).2 = Except.ok false
      ∧ ((go (some "abc123") "" false false false envClean).1.all
          fun e => !isCommitEffect e) = true)
    ∧ (files_changed envBase).2 = Except.ok true :=
  ⟨⟨((change_detection_consistent envClean (some "abc123") "" false false false).1
        (by decide)).1 (by decide),
    ((change_detection_consistent envClean (some "abc123") "" false false false).1
        (by decide)).2⟩,
   (change_detection_consistent envBase (some "abc123") "" false false false).2
      (by decide) (by decide)⟩

/-! ## Claim C8 -/

/-- C8: whenever the archive download succeeded, the downloaded artifact
`sharelatex.zip` is removed on every handled outcome — in particular, a
payload failing zip validation is deleted and the run then terminates
fatally with the "not a zip file" message. -/
theorem fetch_removes_artifact (id : String) (skip : Bool) (env : Env) :
    Effect.removeFile "sharelatex.zip" ∈ (fetch_updates id skip { env with downloadOk := true }).1
    ∧ (fetch_updates id skip { env with downloadOk := true, zipOk := false }).2 =
        Except.error (GoErr.fatal "Downloaded file is not a zip file. Have you made sure that your project is public?")
    ∧ Effect.removeFile "sharelatex.zip" ∈
        (fetch_updates id skip { env with downloadOk := true, zipOk := false }).1 := by
  refine ⟨?_, ?_, ?_⟩
  · cases hz : env.zipOk <;> cases skip <;> cases hl : env.laTeXFolderExists <;>
      simp [fetch_updates, hz, hl]
  · simp [fetch_updates]
  · simp [fetch_updates]

/-! ## Claims C3 and C4: identifier extraction -/

theorem takeWhile_all_self {p : Char → Bool} (l : List Char) :
    (l.takeWhile p).all p = true := by
  rw [List.all_eq_true]
  intro x hx
  exact List.mem_takeWhile_imp hx

theorem findProjectSeg_alnum :
    ∀ (l r : List Char), findProjectSeg l = some r → r.all Char.isAlphanum = true := by
  intro l
  induction l with
  | nil => intro r h; exact Option.noConfusion h
  | cons a t ih =>
    intro r h
    cases hp : projectMarker.isPrefixOf (a :: t) with
    | false =>
      simp only [findProjectSeg, hp, Bool.false_eq_true, if_false] at h
      exact ih r h
    | true =>
      simp only [findProjectSeg, hp, if_true] at h
      have hx := Option.some.inj h
      subst hx
      exact takeWhile_all_self _

/-- C3 counterexample: the URL-shaped input `http://x/project/` makes
identifier extraction return the empty string — a value violating the
`[A-Za-z0-9]+` identifier invariant — instead of failing. -/
theorem url_extract_empty_id :
    isUrlInput "http://x/project/" = true
    ∧ extract_id_from_input "http://x/project/" = ExtractResult.ok "" := by
  constructor
  · decide
  · decide

/-- C3 (amended): for every URL-shaped input, identifier extraction either
returns a — possibly empty — alphanumeric string (matching `[A-Za-z0-9]*`;
the pattern's group is `*`, not `+`, so the non-emptiness half of the
invariant can be violated) or terminates the process fatally; it never
takes the warn-and-return-nothing path. -/
theorem url_extract_alnum_or_fatal (i : String) (h : isUrlInput i = true) :
    (∃ s, extract_id_from_input i = ExtractResult.ok s ∧ s.toList.all Char.isAlphanum = true)
    ∨ (∃ msg, extract_id_from_input i = ExtractResult.fatal msg) := by
  unfold extract_id_from_input
  rw [if_pos h]
  cases hf : findProjectSeg (urlsplitPath i) with
  | none => exact Or.inr ⟨_, rfl⟩
  | some g =>
    exact Or.inl ⟨String.mk g, rfl, findProjectSeg_alnum _ _ hf⟩

/-- C3 witness: the documented example URL is extracted to a (non-empty)
alphanumeric identifier. -/
theorem url_extract_alnum_or_fatal_witness :
    (∃ s, extract_id_from_input "https://www.sharelatex.com/project/56147712cc7f5d0adeadbeef"
        = ExtractResult.ok s ∧ s.toList.all Char.isAlphanum = true)
    ∨ (∃ msg, extract_id_from_input "https://www.sharelatex.com/project/56147712cc7f5d0adeadbeef"
        = ExtractResult.fatal msg) :=
  url_extract_alnum_or_fatal _ (by decide)

/-- C4: the non-URL input `-abc` — which does not match `[A-Za-z0-9]+` — is
returned verbatim as the identifier: the `re.match("[a-zA-Z0-9]*", i)`
validity check always succeeds (a `*` pattern matches the empty prefix), so
the warn-and-return-nothing branch the claim describes is unreachable. -/
theorem nonurl_hyphen_input_returned :
    extract_id_from_input "-abc" = ExtractResult.ok "-abc" := by decide

/-! ## Claim C10: identifier resolution with a single source -/

/-- C10: for every identifier `I`, resolving with only a caller-supplied
identifier returns `I`, and resolving with only a persisted identifier
returns `I`; neither case prompts the operator. -/
theorem determine_id_single_source (I : String) (env : Env) (h : I ≠ "") :
    ((determine_id (some I) { env with savedId := none }).2 = Except.ok I
      ∧ Effect.prompt ∉ (determine_id (some I) { env with savedId := none }).1)
    ∧ ((determine_id none { env with savedId := some I }).2 = Except.ok I
      ∧ Effect.prompt ∉ (determine_id none { env with savedId := some I }).1) := by
  have hIe : I.isEmpty = false := by
    cases hI : I.isEmpty
    · rfl
    · exact absurd ((String.isEmpty_iff I).mp hI) h
  refine ⟨⟨?_, ?_⟩, ⟨?_, ?_⟩⟩ <;>
    simp [determine_id, read_saved_sharelatex_document, Res.bind, pyTruthy, hIe]

/-- C10 witness at a concrete identifier. -/
theorem determine_id_single_source_witness :
    ((determine_id (some "abc123") { envBase with savedId := none }).2 = Except.ok "abc123"
      ∧ Effect.prompt ∉ (determine_id (some "abc123") { envBase with savedId := none }).1)
    ∧ ((determine_id none { envBase with savedId := some "abc123" }).2 = Except.ok "abc123"
      ∧ Effect.prompt ∉ (determine_id none { envBase with savedId := some "abc123" }).1) :=
  determine_id_single_source "abc123" envBase (by decide)

/-! ## Claim C5: the commit message format -/

/-- C5: for all four combinations of title present/absent and free-text
present/absent, the commit command is `git commit -m"<msg>"` where `<msg>`
is exactly `[sharelatex-git-integration <title> <timestamp>] <freetext>`
when a title is known and `[sharelatex-git-integration <timestamp>]
<freetext>` otherwise, the free-text suffix (with its separating space)
being omitted entirely when none was supplied; the timestamp is
`get_timestamp`, i.e. `YYYY/MM/DD HH:MM:SS`. -/
theorem commit_message_format (tm : Tm) (m ti : String) (hm : m ≠ "") (ht : ti ≠ "") :
    commit_cmd m (some ti) (get_timestamp tm) =
      "git commit -m\"" ++ ("[sharelatex-git-integration " ++ ti ++ " " ++ get_timestamp tm
        ++ "]" ++ " " ++ m) ++ "\""
    ∧ commit_cmd m none (get_timestamp tm) =
      "git commit -m\"" ++ ("[sharelatex-git-integration " ++ get_timestamp tm
        ++ "]" ++ " " ++ m) ++ "\""
    ∧ commit_cmd "" (some ti) (get_timestamp tm) =
      "git commit -m\"" ++ ("[sharelatex-git-integration " ++ ti ++ " " ++ get_timestamp tm
        ++ "]") ++ "\""
    ∧ commit_cmd "" none (get_timestamp tm) =
      "git commit -m\"" ++ ("[sharelatex-git-integration " ++ get_timestamp tm ++ "]")
        ++ "\"" := by
  have hm' : m.isEmpty = false := by
    cases h : m.isEmpty
    · rfl
    · exact absurd ((String.isEmpty_iff m).mp h) hm
  have ht' : ti.isEmpty = false := by
    cases h : ti.isEmpty
    · rfl
    · exact absurd ((String.isEmpty_iff ti).mp h) ht
  have hlit : ("git commit -m\"" ++ "[sharelatex-git-integration " : String) =
      "git commit -m\"[sharelatex-git-integration " := by decide
  refine ⟨?_, ?_, ?_, ?_⟩ <;>
    simp only [commit_cmd, pyTruthy, ht', hm', Option.getD_some, Bool.not_false, if_true,
      Bool.false_eq_true, if_false, String.isEmpty_iff, ← hlit, String.append_assoc]

/-- C5 witness: the documented example — title `Thesis`, message
`Draft intro`, timestamp `2024/01/02 03:04:05` — in all four combinations. -/
theorem commit_message_format_witness :
    commit_cmd "Draft intro" (some "Thesis") (get_timestamp ⟨2024, 1, 2, 3, 4, 5⟩) =
      "git commit -m\"" ++ ("[sharelatex-git-integration " ++ "Thesis" ++ " "
        ++ get_timestamp ⟨2024, 1, 2, 3, 4, 5⟩ ++ "]" ++ " " ++ "Draft intro") ++ "\""
    ∧ commit_cmd "Draft intro" none (get_timestamp ⟨2024, 1, 2, 3, 4, 5⟩) =
      "git commit -m\"" ++ ("[sharelatex-git-integration "
        ++ get_timestamp ⟨2024, 1, 2, 3, 4, 5⟩ ++ "]" ++ " " ++ "Draft intro") ++ "\""
    ∧ commit_cmd "" (some "Thesis") (get_timestamp ⟨2024, 1, 2, 3, 4, 5⟩) =
      "git commit -m\"" ++ ("[sharelatex-git-integration " ++ "Thesis" ++ " "
        ++ get_timestamp ⟨2024, 1, 2, 3, 4, 5⟩ ++ "]") ++ "\""
    ∧ commit_cmd "" none (get_timestamp ⟨2024, 1, 2, 3, 4, 5⟩) =
      "git commit -m\"" ++ ("[sharelatex-git-integration "
        ++ get_timestamp ⟨2024, 1, 2, 3, 4, 5⟩ ++ "]") ++ "\"" :=
  commit_message_format ⟨2024, 1, 2, 3, 4, 5⟩ "Draft intro" "Thesis" (by decide) (by decide)

/-! ## Claim C6: exclusion-file update -/

theorem pyLinesAux_cons_nl (cs acc : List Char) :
    pyLinesAux ('\n' :: cs) acc = acc.reverse :: pyLinesAux cs [] := by
  simp [pyLinesAux]

theorem pyLinesAux_cons (c : Char) (cs acc : List Char) (h : c ≠ '\n') :
    pyLinesAux (c :: cs) acc = pyLinesAux cs (c :: acc) := by
  simp [pyLinesAux, h]

theorem pyLinesAux_append_nl :
    ∀ (c acc w : List Char), c.getLast? = some '\n' →
      pyLinesAux (c ++ w) acc = pyLinesAux c acc ++ pyLinesAux w [] := by
  intro c
  induction c with
  | nil => intro acc w h; exact Option.noConfusion h
  | cons a t ih =>
    intro acc w h
    cases t with
    | nil =>
      simp only [List.getLast?_singleton, Option.some.injEq] at h
      subst h
      rw [List.cons_append, List.nil_append, pyLinesAux_cons_nl, pyLinesAux_cons_nl]
      simp [pyLinesAux]
    | cons b t' =>
      rw [List.getLast?_cons_cons] at h
      by_cases hc : a = '\n'
      · subst hc
        rw [List.cons_append, pyLinesAux_cons_nl, pyLinesAux_cons_nl, ih [] w h,
          List.cons_append]
      · rw [List.cons_append, pyLinesAux_cons a _ _ hc, pyLinesAux_cons a _ _ hc,
          ih (a :: acc) w h]

theorem pyLinesAux_entry :
    ∀ (e acc rest : List Char), (∀ x ∈ e, x ≠ '\n') →
      pyLinesAux (e ++ '\n' :: rest) acc = (acc.reverse ++ e) :: pyLinesAux rest [] := by
  intro e
  induction e with
  | nil =>
    intro acc rest h
    rw [List.nil_append, pyLinesAux_cons_nl]
    simp
  | cons a t ih =>
    intro acc rest h
    have ha : a ≠ '\n' := h a (List.mem_cons_self a t)
    rw [List.cons_append, pyLinesAux_cons a _ _ ha,
      ih (a :: acc) rest (fun x hx => h x (List.mem_cons_of_mem a hx))]
    simp

theorem pyLines_joinLines :
    ∀ es : List (List Char), (∀ e ∈ es, ∀ x ∈ e, x ≠ '\n') →
      pyLines (joinLines es) = es := by
  intro es
  induction es with
  | nil => intro _; rfl
  | cons e es' ih =>
    intro h
    have he : ∀ x ∈ e, x ≠ '\n' := h e (List.mem_cons_self e es')
    show pyLinesAux (joinLines (e :: es')) [] = e :: es'
    rw [show joinLines (e :: es') = e ++ '\n' :: joinLines es' from rfl,
      pyLinesAux_entry e [] (joinLines es') he]
    simp only [List.reverse_nil, List.nil_append]
    rw [show pyLinesAux (joinLines es') [] = pyLines (joinLines es') from rfl,
      ih (fun x hx y hy => h x (List.mem_cons_of_mem e hx) y hy)]

/-- C6 counterexample: starting from a `.gitignore` whose content is `foo`
with no trailing newline, the first update appends onto the unterminated
last line (producing the line `foosharelatex-git.py`), so a second update
appends `sharelatex-git.py` again — applying the update twice does not
produce the same content as applying it once. -/
theorem gitignore_update_not_idempotent :
    ensure_gitignore_content (some (ensure_gitignore_content (some "foo".toList)))
      ≠ ensure_gitignore_content (some "foo".toList) := by decide

/-- C6 (amended): each update only ever appends to the existing content;
and for every initial content that is absent, empty, or newline-terminated
(its last raw line is terminated), applying the update twice produces
exactly the same file content as applying it once. (For a file whose last
line is unterminated the first append concatenates onto that line and a
second application can append an entry again; see the counterexample.) -/
theorem ensure_gitignore_idempotent (old : Option (List Char)) :
    (∃ w, ensure_gitignore_content old = old.getD [] ++ w)
    ∧ ((old.getD [] = [] ∨ (old.getD []).getLast? = some '\n') →
        ensure_gitignore_content (some (ensure_gitignore_content old)) =
          ensure_gitignore_content old) := by
  constructor
  · exact ⟨gitignoreAppend old, rfl⟩
  · intro hend
    have hnl : ∀ e ∈ requiredIgnores, ∀ x ∈ e, x ≠ '\n' := by decide
    have hstrip : ∀ e ∈ requiredIgnores, pyStrip e = e := by decide
    have hsub : ∀ e ∈ requiredIgnores.filter
        (fun e => !decide (e ∈ (pyLines (old.getD [])).map pyStrip)), e ∈ requiredIgnores :=
      fun e he => (List.mem_filter.mp he).1
    have hsplit : pyLines (old.getD [] ++ gitignoreAppend old) =
        pyLines (old.getD []) ++ pyLines (gitignoreAppend old) := by
      rcases hend with h0 | hlast
      · rw [h0, List.nil_append]
        rfl
      · exact pyLinesAux_append_nl (old.getD []) [] (gitignoreAppend old) hlast
    have hjl : pyLines (gitignoreAppend old) = requiredIgnores.filter
        (fun e => !decide (e ∈ (pyLines (old.getD [])).map pyStrip)) := by
      rw [show gitignoreAppend old = joinLines (requiredIgnores.filter
        (fun e => !decide (e ∈ (pyLines (old.getD [])).map pyStrip))) from rfl]
      exact pyLines_joinLines _ (fun e he => hnl e (hsub e he))
    have key : ∀ e ∈ requiredIgnores,
        e ∈ (pyLines (old.getD [] ++ gitignoreAppend old)).map pyStrip := by
      intro e he
      rw [hsplit, List.map_append, hjl]
      by_cases hin : e ∈ (pyLines (old.getD [])).map pyStrip
      · exact List.mem_append_left _ hin
      · refine List.mem_append_right _ ?_
        have hmem : e ∈ requiredIgnores.filter
            (fun e => !decide (e ∈ (pyLines (old.getD [])).map pyStrip)) :=
          List.mem_filter.mpr ⟨he, by simp [hin]⟩
        have := List.mem_map_of_mem pyStrip hmem
        rwa [hstrip e he] at this
    have hempty : requiredIgnores.filter
        (fun e => !decide (e ∈ (pyLines (old.getD [] ++ gitignoreAppend old)).map pyStrip))
          = [] := by
      rw [List.filter_eq_nil_iff]
      intro e he
      simp [key e he]
    show (old.getD [] ++ gitignoreAppend old) ++
        gitignoreAppend (some (old.getD [] ++ gitignoreAppend old)) =
      old.getD [] ++ gitignoreAppend old
    rw [show gitignoreAppend (some (old.getD [] ++ gitignoreAppend old)) =
      joinLines (requiredIgnores.filter (fun e => !decide
        (e ∈ (pyLines (old.getD [] ++ gitignoreAppend old)).map pyStrip))) from rfl]
    rw [hempty]
    simp [joinLines]

/-- C6 witness: a missing file — the update creates the three entries and a
second application changes nothing. -/
theorem ensure_gitignore_idempotent_witness :
    ensure_gitignore_content (some (ensure_gitignore_content none)) =
      ensure_gitignore_content none :=
  (ensure_gitignore_idempotent none).2 (Or.inl rfl)

end SharelatexGit
